import Mathlib

/-!
Shallow embedding of the `span` crate: a position-tracking character stream
(`Chars`), a speculative-lookahead wrapper (`Checkpoint`) and a `Span` value
type with merge/aggregate, equality and display rules.

Sources: `src/lib.rs`, `src/chars.rs`, `src/chars/checkpoint.rs`.
Machine integers (`usize`) are modelled as `Nat`; all counters here are
bounded by the input length so wraparound never occurs on reachable values.
Rust strings are modelled as `List Char` (their character sequence);
`str::len`, which counts UTF-8 bytes, is modelled by `byteLen` below.
-/

/-- Position (src/chars.rs): absolute offset plus 1-indexed line/column. -/
@[ext]
structure Position where
  loc : Nat
  line : Nat
  col : Nat
deriving DecidableEq, Repr

/-- The position update applied by `Chars::next` (src/chars.rs lines 170-179):
`loc` always increments; a newline increments `line` and resets `col` to 1,
any other character increments `col`. -/
def Position.step (p : Position) (c : Char) : Position :=
  let p := { p with loc := p.loc + 1 }
  if c = '\n' then { p with line := p.line + 1, col := 1 }
  else { p with col := p.col + 1 }

/-- Folded position update over a list of consumed characters. -/
def Position.stepAll (p : Position) (l : List Char) : Position :=
  l.foldl Position.step p

/-- Chars (src/chars.rs): the remaining character sequence plus the current
position. The `PeekNth` buffering of the Rust implementation is observationally
the remaining list, so `it` holds the characters not yet consumed. -/
structure Chars where
  it : List Char
  current : Position
deriving DecidableEq, Repr

/-- Rust `Chars::new` (src/chars.rs lines 51-62): position starts at `{0,1,1}`. -/
def Chars.new (s : List Char) : Chars :=
  { it := s, current := { loc := 0, line := 1, col := 1 } }

/-- Rust `Iterator::next for Chars` (src/chars.rs lines 170-180). -/
def Chars.next (c : Chars) : Option (Char × Chars) :=
  match c.it with
  | [] => none
  | ch :: rest => some (ch, { it := rest, current := c.current.step ch })

/-- Rust `Chars::peek` (src/chars.rs lines 76-78). -/
def Chars.peek (c : Chars) : Option Char :=
  c.it.head?

/-- Advancing `n` times, discarding output: the effect of
`for _ in chars.take(n) {}` (used by `Checkpoint::commit`). Advancing an
exhausted stream is a no-op. -/
def Chars.advance : Nat → Chars → Chars
  | 0, c => c
  | n + 1, c =>
    match c.next with
    | none => c
    | some (_, c') => Chars.advance n c'

/-- Advancing `n` times collecting the produced characters (stops early at
end of input, like `Iterator::take`). -/
def Chars.nextN : Nat → Chars → List Char × Chars
  | 0, c => ([], c)
  | n + 1, c =>
    match c.next with
    | none => ([], c)
    | some (ch, c') =>
      let r := Chars.nextN n c'
      (ch :: r.1, r.2)

/-- Rust `Chars::peeking_next` (src/chars.rs lines 184-198): peek, and consume only
if the test accepts the peeked character. -/
def Chars.peekingNext (accept : Char → Bool) (c : Chars) : Option (Char × Chars) :=
  match c.peek with
  | none => none
  | some item => if accept item then c.next else none

/-- Recursion underlying `Chars::peek_while`, structural on the remaining
character list. -/
def Chars.peekWhileAux (test : Char → Bool) : List Char → Position → List Char × Chars
  | [], pos => ([], { it := [], current := pos })
  | ch :: rest, pos =>
    if test ch then
      let r := Chars.peekWhileAux test rest (pos.step ch)
      (ch :: r.1, r.2)
    else ([], { it := ch :: rest, current := pos })

/-- Rust `Chars::peek_while` (src/chars.rs lines 91-96), fully exhausted: the
characters produced by `peeking_take_while(test)` and the stream left behind.
Each character is consumed (with the normal position update) only after the
test accepts it; the first rejected character is left in the stream. -/
def Chars.peekWhile (test : Char → Bool) (c : Chars) : List Char × Chars :=
  Chars.peekWhileAux test c.it c.current

/-- Rust `LineAndColumn` (src/lib.rs lines 442-447). -/
@[ext]
structure LineAndColumn where
  line : Nat
  column : Nat
deriving DecidableEq, Repr

/-- Rust `usize::MAX`. -/
def usizeMax : Nat := 2 ^ 64 - 1

/-- Rust `LineAndColumn::UNKNOWN` (src/lib.rs lines 450-453). -/
def LineAndColumn.UNKNOWN : LineAndColumn :=
  { line := usizeMax, column := usizeMax }

/-- Rust `LineAndColumn::min` (src/lib.rs lines 455-458): Rust tuple `min`, i.e.
the lexicographic minimum of `(line, column)` pairs, returning `a` on ties. -/
def LineAndColumn.min (a b : LineAndColumn) : LineAndColumn :=
  if a.line < b.line ∨ (a.line = b.line ∧ a.column ≤ b.column) then a else b

/-- Rust `LineAndColumn::max` (src/lib.rs lines 460-463): Rust tuple `max`, i.e.
the lexicographic maximum of `(line, column)` pairs, returning `b` on ties. -/
def LineAndColumn.max (a b : LineAndColumn) : LineAndColumn :=
  if a.line < b.line ∨ (a.line = b.line ∧ a.column ≤ b.column) then b else a

/-- Rust `AbsoluteSpan` (src/lib.rs lines 400-405); the field `end` is renamed
`endPos` because `end` is a Lean keyword. -/
@[ext]
structure AbsoluteSpan where
  start : Nat
  endPos : Nat
deriving DecidableEq, Repr

/-- Rust `AbsoluteSpan::add` (src/lib.rs lines 407-418). -/
def AbsoluteSpan.add (a b : Option AbsoluteSpan) : Option AbsoluteSpan :=
  match a, b with
  | some a, some b =>
    some { start := Nat.min a.start b.start, endPos := Nat.max a.endPos b.endPos }
  | _, _ => none

/-- Rust `RelativeSpan` (src/lib.rs lines 421-426). -/
@[ext]
structure RelativeSpan where
  start : LineAndColumn
  endPos : LineAndColumn
deriving DecidableEq, Repr

/-- Rust `RelativeSpan::UNKNOWN` (src/lib.rs lines 428-432). -/
def RelativeSpan.UNKNOWN : RelativeSpan :=
  { start := LineAndColumn.UNKNOWN, endPos := LineAndColumn.UNKNOWN }

/-- Rust `RelativeSpan::add` (src/lib.rs lines 434-439). -/
def RelativeSpan.add (a b : RelativeSpan) : RelativeSpan :=
  { start := LineAndColumn.min a.start b.start
    endPos := LineAndColumn.max a.endPos b.endPos }

/-- Rust `Span` (src/lib.rs lines 96-101). -/
@[ext]
structure Span where
  absolute : Option AbsoluteSpan
  relative : RelativeSpan
deriving DecidableEq, Repr

/-- Rust `Span::UNKNOWN` (src/lib.rs lines 145-148). -/
def Span.UNKNOWN : Span :=
  { absolute := none, relative := RelativeSpan.UNKNOWN }

/-- Rust `Span::is_unknown` (src/lib.rs lines 232-234). -/
def Span.is_unknown (s : Span) : Bool :=
  s.absolute.isNone

/-- Rust `impl PartialEq for Span` (src/lib.rs lines 390-398): true when either
operand is unknown, otherwise exact field comparison. -/
def Span.eq (a b : Span) : Bool :=
  if a.is_unknown || b.is_unknown then true
  else decide (a.absolute = b.absolute) && decide (a.relative = b.relative)

/-- Rust `Span::add` (src/lib.rs lines 216-227). -/
def Span.add (a b : Span) : Span :=
  if a.is_unknown then b
  else if b.is_unknown then a
  else
    { absolute := AbsoluteSpan.add a.absolute b.absolute
      relative := RelativeSpan.add a.relative b.relative }

/-- Rust `Iterator::reduce` with `Span::add`, as used by `Span::aggregate`. -/
def Span.reduceAdd : List Span → Option Span
  | [] => none
  | x :: xs => some (xs.foldl Span.add x)

/-- Rust `Span::aggregate` (src/lib.rs lines 199-214). `debug` selects whether
`debug_assert!` is active; the result is `none` exactly when the assertion
fires (the Rust code panics), i.e. when `debug` is set and the reduced result
is unknown. -/
def Span.aggregate (debug : Bool) (spans : List Span) : Option Span :=
  let result := (Span.reduceAdd spans).getD Span.UNKNOWN
  if debug && result.is_unknown then none else some result

/-- Rust `Span::start_line` (src/lib.rs lines 258-260). -/
def Span.start_line (s : Span) : Option Nat :=
  s.absolute.map (fun _ => s.relative.start.line)

/-- Rust `Span::start_position_on_start_line` (src/lib.rs lines 283-285). -/
def Span.start_position_on_start_line (s : Span) : Option Nat :=
  s.absolute.map (fun _ => s.relative.start.column)

/-- Rust `Span::end_line` (src/lib.rs lines 309-311). -/
def Span.end_line (s : Span) : Option Nat :=
  s.absolute.map (fun _ => s.relative.endPos.line)

/-- Rust `Span::end_position_on_end_line` (src/lib.rs lines 334-336). -/
def Span.end_position_on_end_line (s : Span) : Option Nat :=
  s.absolute.map (fun _ => s.relative.endPos.column)

/-- Rust `Span::start` (src/lib.rs lines 359-361). -/
def Span.start (s : Span) : Option Nat :=
  s.absolute.map (fun a => a.start)

/-- Rust `Span::len` (src/lib.rs lines 385-387): absolute end minus absolute
start (`usize` subtraction; well-formed spans satisfy `start ≤ end`). -/
def Span.len (s : Span) : Option Nat :=
  s.absolute.map (fun a => a.endPos - a.start)

/-- Rust `Chars::start_token` (src/chars.rs lines 100-102): the handle captures
the current position. -/
def Chars.start_token (c : Chars) : Position :=
  c.current

/-- Rust `Chars::end_token` (src/chars.rs lines 107-125). -/
def Chars.end_token (c : Chars) (start : Position) : Span :=
  { absolute := some { start := start.loc, endPos := c.current.loc }
    relative :=
      { start := { line := start.line, column := start.col }
        endPos := { line := c.current.line, column := c.current.col } } }

/-- Checkpoint (src/chars/checkpoint.rs lines 5-8): the borrowed stream plus
the number of characters virtually consumed. Peeking at depth `peeked` never
mutates the stream, so `chars` is carried unchanged by every operation except
`commit`. -/
structure Checkpoint where
  chars : Chars
  peeked : Nat
deriving DecidableEq, Repr

/-- Rust `Checkpoint::new` (src/chars/checkpoint.rs lines 11-13). -/
def Checkpoint.new (c : Chars) : Checkpoint :=
  { chars := c, peeked := 0 }

/-- Rust `Checkpoint::abort` (src/chars/checkpoint.rs line 17): releases the
stream unchanged; identical to dropping the checkpoint. -/
def Checkpoint.abort (cp : Checkpoint) : Chars :=
  cp.chars

/-- Rust `Checkpoint::commit` (src/chars/checkpoint.rs lines 21-23): drive the
owning stream forward across everything the checkpoint produced. -/
def Checkpoint.commit (cp : Checkpoint) : Chars :=
  Chars.advance cp.peeked cp.chars

/-- Rust `Iterator::next for Checkpoint` (src/chars/checkpoint.rs lines 81-85):
`peek_nth(peeked)`, incrementing `peeked` only when a character exists. -/
def Checkpoint.next (cp : Checkpoint) : Option Char × Checkpoint :=
  match cp.chars.it.get? cp.peeked with
  | none => (none, cp)
  | some ch => (some ch, { cp with peeked := cp.peeked + 1 })

/-- Rust `Checkpoint::peek` (src/chars/checkpoint.rs lines 73-75). -/
def Checkpoint.peek (cp : Checkpoint) : Option Char :=
  cp.chars.it.get? cp.peeked

/-- Rust `n` successive `Checkpoint::next` calls (also `Iterator::take` against
the checkpoint), collecting the produced characters. -/
def Checkpoint.nextN : Nat → Checkpoint → List Char × Checkpoint
  | 0, cp => ([], cp)
  | n + 1, cp =>
    match Checkpoint.next cp with
    | (none, cp') => ([], cp')
    | (some ch, cp') =>
      let r := Checkpoint.nextN n cp'
      (ch :: r.1, r.2)

/-- The UTF-8 byte width of a character, as used by Rust `str::len`. -/
def charUtf8Size (c : Char) : Nat :=
  if c.val ≤ 0x7F then 1
  else if c.val ≤ 0x7FF then 2
  else if c.val ≤ 0xFFFF then 3
  else 4

/-- The UTF-8 byte length of a character sequence: Rust `str::len` of the
string holding exactly these characters. -/
def byteLen (l : List Char) : Nat :=
  (l.map charUtf8Size).sum

/-- Rust `Checkpoint::head_matches` (src/chars/checkpoint.rs lines 50-53): take
`s.len()` characters — `s.len()` counts the UTF-8 bytes of `s` — then compare
the collected head with `s`. -/
def Checkpoint.head_matches (cp : Checkpoint) (s : List Char) : Bool × Checkpoint :=
  let r := Checkpoint.nextN (byteLen s) cp
  (decide (s = r.1), r.2)

/-- The prefix `line {start.line} column {start.column}` that `Display for
Span` always writes for a known span (src/lib.rs lines 111-115). -/
def Span.displayStart (s : Span) : String :=
  "line " ++ toString s.relative.start.line ++ " column "
    ++ toString s.relative.start.column

/-- Rust `impl fmt::Display for Span` (src/lib.rs lines 104-141). `alternate` is
the `{:#}` flag: `false` is compact mode, `true` is detailed mode. -/
def Span.display (alternate : Bool) (s : Span) : String :=
  if s.is_unknown then "???"
  else if s.relative.start = s.relative.endPos then s.displayStart
  else if s.relative.start.line = s.relative.endPos.line
      ∧ s.relative.start.column + 1 = s.relative.endPos.column then s.displayStart
  else if alternate then
    s.displayStart ++ " to"
      ++ (if s.relative.start.line ≠ s.relative.endPos.line
          then " line " ++ toString s.relative.endPos.line else "")
      ++ " column " ++ toString s.relative.endPos.column
  else s.displayStart

/-- Sample non-unknown span covering absolute `[0,1)`, used as a concrete
input in witness theorems. -/
def sampleA : Span :=
  { absolute := some { start := 0, endPos := 1 }
    relative := { start := { line := 1, column := 1 }
                  endPos := { line := 1, column := 2 } } }

/-- Sample non-unknown span covering absolute `[2,3)`, used as a concrete
input in witness theorems. -/
def sampleB : Span :=
  { absolute := some { start := 2, endPos := 3 }
    relative := { start := { line := 1, column := 3 }
                  endPos := { line := 1, column := 4 } } }

/-- Sample non-unknown span covering absolute `[1,5)` across two lines, used
as a concrete input in witness theorems. -/
def sampleC : Span :=
  { absolute := some { start := 1, endPos := 5 }
    relative := { start := { line := 1, column := 2 }
                  endPos := { line := 2, column := 2 } } }

theorem Chars.nextN_take_drop (n : Nat) (l : List Char) (pos : Position) :
    Chars.nextN n { it := l, current := pos }
      = (l.take n,
         { it := l.drop n, current := Position.stepAll pos (l.take n) }) := by
  induction n generalizing l pos with
  | zero => simp [Chars.nextN, Position.stepAll]
  | succ n ih =>
    cases l with
    | nil => simp [Chars.nextN, Chars.next, Position.stepAll]
    | cons ch rest =>
      simp [Chars.nextN, Chars.next, ih, Position.stepAll]

theorem Chars.advance_eq (n : Nat) (c : Chars) :
    Chars.advance n c = (Chars.nextN n c).2 := by
  induction n generalizing c with
  | zero => rfl
  | succ n ih =>
    cases h : c.next with
    | none => simp [Chars.advance, Chars.nextN, h]
    | some p => simp [Chars.advance, Chars.nextN, h, ih]

theorem Chars.eta (c : Chars) : c = { it := c.it, current := c.current } := rfl

theorem Checkpoint.cpNextN_take_drop (n : Nat) (c : Chars) (p : Nat) :
    Checkpoint.nextN n { chars := c, peeked := p }
      = ((c.it.drop p).take n,
         { chars := c, peeked := p + ((c.it.drop p).take n).length }) := by
  induction n generalizing p with
  | zero => simp [Checkpoint.nextN]
  | succ n ih =>
    cases h : c.it.get? p with
    | none =>
      have hle : c.it.length ≤ p := List.get?_eq_none.mp h
      have hdrop : c.it.drop p = [] := List.drop_eq_nil_of_le hle
      have h' : c.it[p]? = none := by
        rw [← List.get?_eq_getElem?]
        exact h
      simp [Checkpoint.nextN, Checkpoint.next, h, h', hdrop]
    | some ch =>
      have hlt : p < c.it.length := by
        by_contra hge
        rw [List.get?_eq_none.mpr (Nat.le_of_not_lt hge)] at h
        exact Option.noConfusion h
      have hdrop : c.it.drop p = c.it[p] :: c.it.drop (p + 1) :=
        List.drop_eq_getElem_cons hlt
      have hch : c.it[p] = ch := by
        have := List.get?_eq_getElem? c.it p
        rw [h, List.getElem?_eq_getElem hlt] at this
        exact (Option.some.injEq _ _).mp this.symm
      simp only [Checkpoint.nextN, Checkpoint.next, h, ih, hdrop, hch,
        List.take_succ_cons, List.length_cons]
      simp only [Prod.mk.injEq, Checkpoint.mk.injEq, true_and, and_true,
        List.cons.injEq]
      omega

theorem Chars.peekWhileAux_eq (test : Char → Bool) (l : List Char) (pos : Position) :
    Chars.peekWhileAux test l pos
      = (l.takeWhile test,
         { it := l.dropWhile test
           current := Position.stepAll pos (l.takeWhile test) }) := by
  induction l generalizing pos with
  | nil => simp [Chars.peekWhileAux, Position.stepAll]
  | cons ch rest ih =>
    by_cases h : test ch
    · simp [Chars.peekWhileAux, h, ih, List.takeWhile_cons, List.dropWhile_cons,
        Position.stepAll]
    · simp [Chars.peekWhileAux, h, List.takeWhile_cons, List.dropWhile_cons,
        Position.stepAll]

theorem LineAndColumn.min_comm (a b : LineAndColumn) :
    LineAndColumn.min a b = LineAndColumn.min b a := by
  unfold LineAndColumn.min
  split_ifs <;> first | rfl | (ext <;> omega)

theorem LineAndColumn.max_comm (a b : LineAndColumn) :
    LineAndColumn.max a b = LineAndColumn.max b a := by
  unfold LineAndColumn.max
  split_ifs <;> first | rfl | (ext <;> omega)

theorem LineAndColumn.min_assoc (a b c : LineAndColumn) :
    LineAndColumn.min (LineAndColumn.min a b) c
      = LineAndColumn.min a (LineAndColumn.min b c) := by
  unfold LineAndColumn.min
  split_ifs <;> first | rfl | (ext <;> omega)

theorem LineAndColumn.max_assoc (a b c : LineAndColumn) :
    LineAndColumn.max (LineAndColumn.max a b) c
      = LineAndColumn.max a (LineAndColumn.max b c) := by
  unfold LineAndColumn.max
  split_ifs <;> first | rfl | (ext <;> omega)

theorem AbsoluteSpan.absAdd_comm (a b : Option AbsoluteSpan) :
    AbsoluteSpan.add a b = AbsoluteSpan.add b a := by
  cases a <;> cases b <;>
    simp [AbsoluteSpan.add, Nat.min_comm, Nat.max_comm]

theorem AbsoluteSpan.absAdd_assoc (a b c : Option AbsoluteSpan) :
    AbsoluteSpan.add (AbsoluteSpan.add a b) c
      = AbsoluteSpan.add a (AbsoluteSpan.add b c) := by
  cases a <;> cases b <;> cases c <;>
    simp [AbsoluteSpan.add, Nat.min_assoc, Nat.max_assoc]

theorem RelativeSpan.relAdd_comm (a b : RelativeSpan) :
    RelativeSpan.add a b = RelativeSpan.add b a := by
  simp [RelativeSpan.add]
  exact ⟨LineAndColumn.min_comm _ _, LineAndColumn.max_comm _ _⟩

theorem RelativeSpan.relAdd_assoc (a b c : RelativeSpan) :
    RelativeSpan.add (RelativeSpan.add a b) c
      = RelativeSpan.add a (RelativeSpan.add b c) := by
  simp [RelativeSpan.add]
  exact ⟨LineAndColumn.min_assoc _ _ _, LineAndColumn.max_assoc _ _ _⟩

theorem Span.add_unknown_left (a b : Span) (h : a.is_unknown = true) :
    Span.add a b = b := by
  simp [Span.add, h]

theorem Span.add_unknown_right (a b : Span) (ha : a.is_unknown = false)
    (hb : b.is_unknown = true) : Span.add a b = a := by
  simp [Span.add, ha, hb]

theorem Span.add_known (a b : Span) (ha : a.is_unknown = false)
    (hb : b.is_unknown = false) :
    Span.add a b
      = { absolute := AbsoluteSpan.add a.absolute b.absolute
          relative := RelativeSpan.add a.relative b.relative } := by
  simp [Span.add, ha, hb]

theorem Span.add_is_unknown (a b : Span) :
    (Span.add a b).is_unknown = (a.is_unknown && b.is_unknown) := by
  cases ha : a.absolute <;> cases hb : b.absolute <;>
    simp [Span.add, Span.is_unknown, AbsoluteSpan.add, ha, hb]

theorem Span.spanAdd_assoc (a b c : Span) :
    Span.add (Span.add a b) c = Span.add a (Span.add b c) := by
  cases ha : a.is_unknown with
  | true =>
    rw [Span.add_unknown_left a b ha, Span.add_unknown_left a _ ha]
  | false =>
    cases hb : b.is_unknown with
    | true =>
      rw [Span.add_unknown_right a b ha hb, Span.add_unknown_left b c hb]
    | false =>
      have hab : (Span.add a b).is_unknown = false := by
        rw [Span.add_is_unknown, ha, hb]
        rfl
      cases hc : c.is_unknown with
      | true =>
        rw [Span.add_unknown_right _ c hab hc, Span.add_unknown_right b c hb hc]
      | false =>
        have hbc : (Span.add b c).is_unknown = false := by
          rw [Span.add_is_unknown, hb, hc]
          rfl
        rw [Span.add_known _ _ hab hc, Span.add_known _ _ ha hbc,
          Span.add_known _ _ ha hb, Span.add_known _ _ hb hc]
        dsimp only
        rw [AbsoluteSpan.absAdd_assoc, RelativeSpan.relAdd_assoc]

theorem Span.spanAdd_comm (a b : Span)
    (ha : a.is_unknown = true → a = Span.UNKNOWN)
    (hb : b.is_unknown = true → b = Span.UNKNOWN) :
    Span.add a b = Span.add b a := by
  cases hau : a.is_unknown with
  | true =>
    cases hbu : b.is_unknown with
    | true =>
      rw [Span.add_unknown_left a b hau, Span.add_unknown_left b a hbu,
        ha hau, hb hbu]
    | false =>
      rw [Span.add_unknown_left a b hau, Span.add_unknown_right b a hbu hau]
  | false =>
    cases hbu : b.is_unknown with
    | true =>
      rw [Span.add_unknown_right a b hau hbu, Span.add_unknown_left b a hbu]
    | false =>
      rw [Span.add_known a b hau hbu, Span.add_known b a hbu hau]
      rw [AbsoluteSpan.absAdd_comm, RelativeSpan.relAdd_comm]

theorem Span.add_wf (a b : Span)
    (ha : a.is_unknown = true → a = Span.UNKNOWN)
    (hb : b.is_unknown = true → b = Span.UNKNOWN) :
    (Span.add a b).is_unknown = true → Span.add a b = Span.UNKNOWN := by
  intro h
  rw [Span.add_is_unknown, Bool.and_eq_true] at h
  rw [ha h.1, hb h.2]
  decide

theorem Chars.nextN_on_state (n : Nat) (c : Chars) :
    Chars.nextN n c
      = (c.it.take n,
         { it := c.it.drop n
           current := Position.stepAll c.current (c.it.take n) }) :=
  Chars.nextN_take_drop n c.it c.current

theorem Checkpoint.cpNextN_on_state (n : Nat) (cp : Checkpoint) :
    Checkpoint.nextN n cp
      = ((cp.chars.it.drop cp.peeked).take n,
         { chars := cp.chars
           peeked := cp.peeked + ((cp.chars.it.drop cp.peeked).take n).length }) :=
  Checkpoint.cpNextN_take_drop n cp.chars cp.peeked

theorem Chars.peekWhile_split (test : Char → Bool) (c : Chars) :
    Chars.peekWhile test c
      = (c.it.takeWhile test,
         { it := c.it.dropWhile test
           current := Position.stepAll c.current (c.it.takeWhile test) }) :=
  Chars.peekWhileAux_eq test c.it c.current

theorem Position.stepAll_line (pos : Position) (l : List Char) :
    (Position.stepAll pos l).line = pos.line + l.count '\n' := by
  induction l generalizing pos with
  | nil => simp [Position.stepAll]
  | cons ch rest ih =>
    rw [show Position.stepAll pos (ch :: rest)
          = Position.stepAll (pos.step ch) rest from rfl, ih]
    by_cases h : ch = '\n' <;>
      (simp [Position.step, h, List.count_cons]; try omega)

theorem Chars.advance_line (n : Nat) (l : List Char) (pos : Position) :
    (Chars.advance n { it := l, current := pos }).current.line
      = pos.line + (l.take n).count '\n' := by
  rw [Chars.advance_eq, Chars.nextN_take_drop]
  exact Position.stepAll_line pos (l.take n)

theorem List.take_eq_of_min (l : List Char) (n : Nat) :
    l.take (Nat.min n l.length) = l.take n := by
  rw [show Nat.min n l.length = if n ≤ l.length then n else l.length from rfl]
  split_ifs with h
  · rfl
  · rw [List.take_length, List.take_of_length_le (by omega)]

theorem List.drop_eq_of_min (l : List Char) (n : Nat) :
    l.drop (Nat.min n l.length) = l.drop n := by
  rw [show Nat.min n l.length = if n ≤ l.length then n else l.length from rfl]
  split_ifs with h
  · rfl
  · rw [List.drop_length, List.drop_eq_nil_of_le (by omega)]

theorem List.take_length_takeWhile (test : Char → Bool) (l : List Char) :
    l.take (l.takeWhile test).length = l.takeWhile test := by
  induction l with
  | nil => rfl
  | cons ch rest ih =>
    by_cases h : test ch <;> simp [List.takeWhile_cons, h, ih]

theorem List.drop_length_takeWhile (test : Char → Bool) (l : List Char) :
    l.drop (l.takeWhile test).length = l.dropWhile test := by
  induction l with
  | nil => rfl
  | cons ch rest ih =>
    by_cases h : test ch <;> simp [List.takeWhile_cons, List.dropWhile_cons, h, ih]

/-- Claim C1: for every input text and every sequence of advances, the
position starts at offset 0, line 1, column 1; an advance consuming a newline
increments the line and resets the column to 1, any other advance increments
the column and leaves the line unchanged; hence after any consumed prefix the
line equals 1 plus the number of newline characters consumed so far. -/
theorem C1_position_tracking (s : List Char) (n : Nat) (c c' : Chars) (ch : Char)
    (h : Chars.next c = some (ch, c')) :
    (Chars.new s).current = { loc := 0, line := 1, col := 1 } ∧
    c'.current.loc = c.current.loc + 1 ∧
    (ch = '\n' → c'.current.line = c.current.line + 1 ∧ c'.current.col = 1) ∧
    (ch ≠ '\n' → c'.current.line = c.current.line
        ∧ c'.current.col = c.current.col + 1) ∧
    (Chars.advance n (Chars.new s)).current.line = 1 + (s.take n).count '\n' := by
  have hstep : c'.current = c.current.step ch := by
    cases hit : c.it with
    | nil =>
      rw [Chars.next, hit] at h
      exact Option.noConfusion h
    | cons x rest =>
      rw [Chars.next, hit] at h
      simp only [Option.some.injEq, Prod.mk.injEq] at h
      rw [← h.2, ← h.1]
  refine ⟨rfl, ?_, ?_, ?_, ?_⟩
  · rw [hstep]
    by_cases hc : ch = '\n' <;> simp [Position.step, hc]
  · intro hc
    rw [hstep]
    simp [Position.step, hc]
  · intro hc
    rw [hstep]
    simp [Position.step, hc]
  · exact Chars.advance_line n s { loc := 0, line := 1, col := 1 }

/-- Witness for C1 at a concrete stream and prefix. -/
theorem C1_position_tracking_witness :
    Chars.next (Chars.new ['a', 'b'])
      = some ('a', { it := ['b'], current := { loc := 1, line := 1, col := 2 } }) ∧
    ((Chars.new ['a', '\n', 'b']).current = { loc := 0, line := 1, col := 1 } ∧
     ({ it := ['b'], current := { loc := 1, line := 1, col := 2 } } : Chars).current.loc
        = (Chars.new ['a', 'b']).current.loc + 1 ∧
     ('a' = '\n' →
        ({ it := ['b'], current := { loc := 1, line := 1, col := 2 } } : Chars).current.line
            = (Chars.new ['a', 'b']).current.line + 1 ∧
        ({ it := ['b'], current := { loc := 1, line := 1, col := 2 } } : Chars).current.col = 1) ∧
     ('a' ≠ '\n' →
        ({ it := ['b'], current := { loc := 1, line := 1, col := 2 } } : Chars).current.line
            = (Chars.new ['a', 'b']).current.line ∧
        ({ it := ['b'], current := { loc := 1, line := 1, col := 2 } } : Chars).current.col
            = (Chars.new ['a', 'b']).current.col + 1) ∧
     (Chars.advance 2 (Chars.new ['a', '\n', 'b'])).current.line
        = 1 + (['a', '\n', 'b'].take 2).count '\n') :=
  ⟨by decide,
   C1_position_tracking ['a', '\n', 'b'] 2 (Chars.new ['a', 'b'])
     { it := ['b'], current := { loc := 1, line := 1, col := 2 } } 'a' (by decide)⟩

/-- Claim C2: checkpoint round-trip. For every stream state and every number
of `next()` calls on a fresh checkpoint: aborting returns the owning stream
exactly as if the checkpoint had never existed; the checkpoint's outputs are
exactly what direct consumption would have produced; committing leaves the
owning stream in exactly the state reached by consuming those characters
directly (same position and same subsequent output), i.e. the original
output with the checkpointed prefix removed. -/
theorem C2_checkpoint_roundtrip (c : Chars) (n : Nat) :
    Checkpoint.abort (Checkpoint.nextN n (Checkpoint.new c)).2 = c ∧
    (Checkpoint.nextN n (Checkpoint.new c)).1 = (Chars.nextN n c).1 ∧
    (Chars.nextN n c).1 = c.it.take n ∧
    Checkpoint.commit (Checkpoint.nextN n (Checkpoint.new c)).2 = (Chars.nextN n c).2 ∧
    (Checkpoint.commit (Checkpoint.nextN n (Checkpoint.new c)).2).it
      = c.it.drop ((Checkpoint.nextN n (Checkpoint.new c)).1).length := by
  have hnew : Checkpoint.new c = { chars := c, peeked := 0 } := rfl
  rw [Checkpoint.cpNextN_on_state, hnew]
  simp only [List.drop_zero, Nat.zero_add]
  have hlen : (c.it.take n).length = Nat.min n c.it.length := List.length_take n c.it
  refine ⟨rfl, ?_, ?_, ?_, ?_⟩
  · rw [Chars.nextN_on_state]
  · rw [Chars.nextN_on_state]
  · show Chars.advance (c.it.take n).length c = (Chars.nextN n c).2
    rw [Chars.advance_eq, Chars.nextN_on_state, Chars.nextN_on_state, hlen,
      List.take_eq_of_min, List.drop_eq_of_min]
  · show (Chars.advance (c.it.take n).length c).it = c.it.drop (c.it.take n).length
    rw [Chars.advance_eq, Chars.nextN_on_state]

/-- Claim C5: `peek_while(p)` produces exactly the longest prefix of
characters accepted by `p`, never consumes a character for which `p` is
false (the resulting stream starts at the first rejected character, i.e.
holds exactly the suffix from there on), and the resulting stream state is
exactly that of consuming the accepted characters directly, so the position
accounts for exactly the accepted characters. -/
theorem C5_peek_while (test : Char → Bool) (c : Chars) :
    (Chars.peekWhile test c).1 = c.it.takeWhile test ∧
    (Chars.peekWhile test c).2.it = c.it.dropWhile test ∧
    (Chars.peekWhile test c).2 = Chars.advance (c.it.takeWhile test).length c := by
  rw [Chars.peekWhile_split]
  refine ⟨rfl, rfl, ?_⟩
  rw [Chars.advance_eq, Chars.nextN_on_state, List.take_length_takeWhile,
    List.drop_length_takeWhile]

/-- Claim C3 (refuted by the code): the code advances `loc` by exactly 1 per
character (a Unicode scalar value), not by its UTF-8 byte width. Over the
text `"¢5"` (where `'¢'` occupies 2 bytes), the span covering the first
character has `len() = 1` although the token is 2 bytes long, and the span
starting at the second character has `start() = 1` although that character
sits at byte offset 2. -/
theorem C3_offsets_count_chars_not_bytes :
    Span.len ((Chars.advance 1 (Chars.new "¢5".data)).end_token
        ((Chars.new "¢5".data).start_token)) = some 1 ∧
    Span.start ((Chars.advance 2 (Chars.new "¢5".data)).end_token
        ((Chars.advance 1 (Chars.new "¢5".data)).start_token)) = some 1 ∧
    byteLen ("¢5".data.take 1) = 2 ∧
    byteLen "¢5".data = 3 := by
  decide

/-- Claim C4 counterexample: `head_matches` advances the lookahead cursor by
the UTF-8 byte length of `expected` (Rust `str::len`), not by its character
count. With the 2-byte, 1-character string `"¢"` over the stream `"¢5"`
(2 characters available, so the input is not shorter than `expected`), the
cursor advances by 2, not by `len("¢") = 1` characters, and the call returns
false even though the head does match; moreover over the 1-character stream
`"¢"` (shorter than the 2-byte request) it returns true, not false. -/
theorem C4_head_matches_counterexample :
    "¢".data.length = 1 ∧
    (Chars.new "¢5".data).it.length = 2 ∧
    (Checkpoint.head_matches (Checkpoint.new (Chars.new "¢5".data)) "¢".data).2.peeked = 2 ∧
    (Checkpoint.head_matches (Checkpoint.new (Chars.new "¢5".data)) "¢".data).1 = false ∧
    (Checkpoint.head_matches (Checkpoint.new (Chars.new "¢".data)) "¢".data).1 = true := by
  decide

/-- Claim C4 (amended): `head_matches(expected)` produces exactly
`byteLen(expected)` characters from the Checkpoint — `len(expected)` in the
source is the UTF-8 byte length — or however many remain if the input is
shorter, advances the lookahead cursor by exactly that amount even when the
result is false, and returns true iff the produced characters equal
`expected`; over the stream `"123456"`, `head_matches("1238")` returns false
and the Checkpoint's next produced character is `'5'`. -/
theorem C4_head_matches_amended (c : Chars) (p : Nat) (s : List Char) :
    (Checkpoint.head_matches { chars := c, peeked := p } s).2.chars = c ∧
    (Checkpoint.head_matches { chars := c, peeked := p } s).2.peeked
      = p + Nat.min (byteLen s) (c.it.length - p) ∧
    ((Checkpoint.head_matches { chars := c, peeked := p } s).1 = true
      ↔ s = (Checkpoint.nextN (byteLen s) { chars := c, peeked := p }).1) ∧
    (Checkpoint.nextN (byteLen s) { chars := c, peeked := p }).1
      = (c.it.drop p).take (byteLen s) ∧
    (Checkpoint.head_matches (Checkpoint.new (Chars.new "123456".data)) "1238".data).1
      = false ∧
    (Checkpoint.next
      (Checkpoint.head_matches
        (Checkpoint.new (Chars.new "123456".data)) "1238".data).2).1
      = some '5' := by
  refine ⟨?_, ?_, ?_, ?_, by decide, by decide⟩
  · rw [show Checkpoint.head_matches { chars := c, peeked := p } s
          = (decide (s = (Checkpoint.nextN (byteLen s) { chars := c, peeked := p }).1),
             (Checkpoint.nextN (byteLen s) { chars := c, peeked := p }).2) from rfl]
    rw [Checkpoint.cpNextN_on_state]
  · rw [show Checkpoint.head_matches { chars := c, peeked := p } s
          = (decide (s = (Checkpoint.nextN (byteLen s) { chars := c, peeked := p }).1),
             (Checkpoint.nextN (byteLen s) { chars := c, peeked := p }).2) from rfl]
    rw [Checkpoint.cpNextN_on_state]
    simp only [List.length_take, List.length_drop]
  · rw [show (Checkpoint.head_matches { chars := c, peeked := p } s).1
          = decide (s = (Checkpoint.nextN (byteLen s) { chars := c, peeked := p }).1)
          from rfl]
    exact decide_eq_true_iff
  · rw [Checkpoint.cpNextN_on_state]

/-- Claim C6: span equality is true when either operand is unknown (so
`Span::UNKNOWN` equals every span in both argument orders), and otherwise
holds iff both the absolute and the relative fields match exactly; two
non-unknown spans with different absolute ranges are unequal, which together
with the wildcard behavior makes the relation non-transitive. -/
theorem C6_span_equality (a b s : Span)
    (ha : a.is_unknown = false) (hb : b.is_unknown = false) :
    Span.eq Span.UNKNOWN s = true ∧
    Span.eq s Span.UNKNOWN = true ∧
    (Span.eq a b = true ↔ a.absolute = b.absolute ∧ a.relative = b.relative) ∧
    (a.absolute ≠ b.absolute → Span.eq a b = false) := by
  refine ⟨?_, ?_, ?_, ?_⟩
  · simp [Span.eq, Span.UNKNOWN, Span.is_unknown]
  · simp [Span.eq, Span.UNKNOWN, Span.is_unknown]
  · simp [Span.eq, ha, hb]
  · intro hne
    simp [Span.eq, ha, hb, hne]

/-- Witness for C6 at concrete spans. -/
theorem C6_span_equality_witness :
    sampleA.is_unknown = false ∧ sampleB.is_unknown = false ∧
    (Span.eq Span.UNKNOWN sampleC = true ∧
     Span.eq sampleC Span.UNKNOWN = true ∧
     (Span.eq sampleA sampleB = true
        ↔ sampleA.absolute = sampleB.absolute ∧ sampleA.relative = sampleB.relative) ∧
     (sampleA.absolute ≠ sampleB.absolute → Span.eq sampleA sampleB = false)) :=
  ⟨by decide, by decide,
   C6_span_equality sampleA sampleB sampleC (by decide) (by decide)⟩

/-- Claim C8: aggregating an empty list of spans panics (modelled as `none`)
when debug assertions are enabled, and returns `Span::UNKNOWN` in a release
build. -/
theorem C8_aggregate_empty :
    Span.aggregate true [] = none ∧ Span.aggregate false [] = some Span.UNKNOWN := by
  decide

theorem Span.foldl_add_unknown (xs : List Span) (acc : Span)
    (hacc : acc = Span.UNKNOWN) (h : ∀ s ∈ xs, s = Span.UNKNOWN) :
    xs.foldl Span.add acc = Span.UNKNOWN := by
  induction xs generalizing acc with
  | nil => simpa using hacc
  | cons y ys ih =>
    have hy : y = Span.UNKNOWN := h y (by simp)
    rw [List.foldl_cons]
    refine ih (Span.add acc y) ?_ ?_
    · rw [hacc, hy]
      decide
    · intro s hs
      exact h s (by simp [hs])

/-- Claim C10: in a debug build `Span::aggregate` fires the "empty list"
assertion (modelled as `none`) for every non-empty list all of whose elements
are `Span::UNKNOWN`, because the assertion checks the reduced result rather
than the input list; in a release build such a call returns `Span::UNKNOWN`
without error. -/
theorem C10_aggregate_all_unknown (spans : List Span) (h1 : spans ≠ [])
    (h2 : ∀ s ∈ spans, s = Span.UNKNOWN) :
    Span.aggregate true spans = none ∧
    Span.aggregate false spans = some Span.UNKNOWN := by
  cases spans with
  | nil => exact absurd rfl h1
  | cons x xs =>
    have hfold : xs.foldl Span.add x = Span.UNKNOWN :=
      Span.foldl_add_unknown xs x (h2 x (by simp))
        (fun s hs => h2 s (by simp [hs]))
    simp [Span.aggregate, Span.reduceAdd, hfold]
    decide

/-- Witness for C10 at the concrete list `[Span.UNKNOWN]`. -/
theorem C10_aggregate_all_unknown_witness :
    ([Span.UNKNOWN] ≠ ([] : List Span)) ∧
    (∀ s ∈ [Span.UNKNOWN], s = Span.UNKNOWN) ∧
    (Span.aggregate true [Span.UNKNOWN] = none ∧
     Span.aggregate false [Span.UNKNOWN] = some Span.UNKNOWN) :=
  ⟨by decide, by decide,
   C10_aggregate_all_unknown [Span.UNKNOWN] (by decide) (by decide)⟩

/-- Claim C7: `Span::add` (merge) has `Span::UNKNOWN` as an identity element
(returning the other operand unchanged when either side is unknown); on two
known spans it produces the absolute range
`[min(a.start, b.start), max(a.end, b.end)]` together with the lexicographic
minimum of the relative starts and lexicographic maximum of the relative
ends; it is commutative and associative, so aggregation is independent of
element order: `aggregate [a] = a` for non-unknown `a`, and
`aggregate [a,b,c] = aggregate [c,b,a]`. Unknown operands are required to be
the `Span::UNKNOWN` constant itself, which holds for every span the library
constructs. -/
theorem C7_merge_algebra (a b c : Span) (x y : AbsoluteSpan) (dbg : Bool)
    (ha : a.is_unknown = true → a = Span.UNKNOWN)
    (hb : b.is_unknown = true → b = Span.UNKNOWN)
    (hc : c.is_unknown = true → c = Span.UNKNOWN) :
    Span.add Span.UNKNOWN a = a ∧
    Span.add a Span.UNKNOWN = a ∧
    (a.absolute = some x → b.absolute = some y →
      Span.add a b
        = { absolute := some { start := Nat.min x.start y.start
                               endPos := Nat.max x.endPos y.endPos }
            relative := { start := LineAndColumn.min a.relative.start b.relative.start
                          endPos := LineAndColumn.max a.relative.endPos b.relative.endPos } }) ∧
    Span.add a b = Span.add b a ∧
    Span.add (Span.add a b) c = Span.add a (Span.add b c) ∧
    (a.is_unknown = false → Span.aggregate dbg [a] = some a) ∧
    Span.aggregate dbg [a, b, c] = Span.aggregate dbg [c, b, a] := by
  refine ⟨?_, ?_, ?_, ?_, ?_, ?_, ?_⟩
  · exact Span.add_unknown_left Span.UNKNOWN a rfl
  · cases hau : a.is_unknown with
    | true =>
      rw [ha hau, Span.add_unknown_left Span.UNKNOWN Span.UNKNOWN rfl]
    | false => exact Span.add_unknown_right a Span.UNKNOWN hau rfl
  · intro h1 h2
    have ha' : a.is_unknown = false := by simp [Span.is_unknown, h1]
    have hb' : b.is_unknown = false := by simp [Span.is_unknown, h2]
    rw [Span.add_known a b ha' hb', h1, h2]
    rfl
  · exact Span.spanAdd_comm a b ha hb
  · exact Span.spanAdd_assoc a b c
  · intro h
    simp [Span.aggregate, Span.reduceAdd, h]
  · have key : Span.add (Span.add a b) c = Span.add (Span.add c b) a := by
      calc Span.add (Span.add a b) c
          = Span.add a (Span.add b c) := Span.spanAdd_assoc a b c
        _ = Span.add a (Span.add c b) := by rw [Span.spanAdd_comm b c hb hc]
        _ = Span.add (Span.add c b) a :=
            Span.spanAdd_comm a (Span.add c b) ha (Span.add_wf c b hc hb)
    simp [Span.aggregate, Span.reduceAdd, key]

/-- Witness for C7 at concrete spans (including an unknown third operand). -/
theorem C7_merge_algebra_witness :
    (sampleA.is_unknown = true → sampleA = Span.UNKNOWN) ∧
    (sampleB.is_unknown = true → sampleB = Span.UNKNOWN) ∧
    (Span.UNKNOWN.is_unknown = true → Span.UNKNOWN = Span.UNKNOWN) ∧
    (Span.add Span.UNKNOWN sampleA = sampleA ∧
     Span.add sampleA Span.UNKNOWN = sampleA ∧
     (sampleA.absolute = some { start := 0, endPos := 1 } →
      sampleB.absolute = some { start := 2, endPos := 3 } →
      Span.add sampleA sampleB
        = { absolute := some { start := Nat.min 0 2, endPos := Nat.max 1 3 }
            relative :=
              { start := LineAndColumn.min sampleA.relative.start sampleB.relative.start
                endPos := LineAndColumn.max sampleA.relative.endPos sampleB.relative.endPos } }) ∧
     Span.add sampleA sampleB = Span.add sampleB sampleA ∧
     Span.add (Span.add sampleA sampleB) Span.UNKNOWN
        = Span.add sampleA (Span.add sampleB Span.UNKNOWN) ∧
     (sampleA.is_unknown = false → Span.aggregate true [sampleA] = some sampleA) ∧
     Span.aggregate true [sampleA, sampleB, Span.UNKNOWN]
        = Span.aggregate true [Span.UNKNOWN, sampleB, sampleA]) :=
  ⟨by decide, by decide, by decide,
   C7_merge_algebra sampleA sampleB Span.UNKNOWN
     { start := 0, endPos := 1 } { start := 2, endPos := 3 } true
     (by decide) (by decide) (by decide)⟩

/-- Claim C9: display formatting. An unknown span prints `???` in both
modes; otherwise both modes print `line {start.line} column {start.column}`
and stop there if the span is empty or exactly one character wide on a
single line; otherwise compact mode stops after the start and detailed mode
appends ` to`, then ` line {end.line}` only when the end line differs, then
always ` column {end.column}`. A 3-character token over `"123456"` displays
in detailed mode as `"line 1 column 1 to column 4"`. -/
theorem C9_display_rules (s : Span) (alt : Bool) :
    (s.is_unknown = true → Span.display alt s = "???") ∧
    (s.is_unknown = false → s.relative.start = s.relative.endPos →
        Span.display alt s = Span.displayStart s) ∧
    (s.is_unknown = false → s.relative.start.line = s.relative.endPos.line →
        s.relative.start.column + 1 = s.relative.endPos.column →
        Span.display alt s = Span.displayStart s) ∧
    (s.is_unknown = false → Span.display false s = Span.displayStart s) ∧
    (s.is_unknown = false → s.relative.start ≠ s.relative.endPos →
        ¬(s.relative.start.line = s.relative.endPos.line ∧
          s.relative.start.column + 1 = s.relative.endPos.column) →
        Span.display true s
          = Span.displayStart s ++ " to"
            ++ (if s.relative.start.line ≠ s.relative.endPos.line
                then " line " ++ toString s.relative.endPos.line else "")
            ++ " column " ++ toString s.relative.endPos.column) ∧
    Span.display true
        ((Chars.advance 3 (Chars.new "123456".data)).end_token
          ((Chars.new "123456".data).start_token))
      = "line 1 column 1 to column 4" := by
  refine ⟨?_, ?_, ?_, ?_, ?_, by decide⟩
  · intro h
    simp [Span.display, h]
  · intro h he
    simp [Span.display, h, he]
  · intro h h1 h2
    by_cases he : s.relative.start = s.relative.endPos <;>
      simp [Span.display, h, he, h1, h2]
  · intro h
    simp only [Span.display, h, Bool.false_eq_true, if_false]
    split_ifs <;> rfl
  · intro h hne hnw
    simp [Span.display, h, hne, hnw]

/-- Witness for C9 at a concrete two-line span in detailed mode. -/
theorem C9_display_rules_witness :
    (sampleC.is_unknown = true → Span.display true sampleC = "???") ∧
    (sampleC.is_unknown = false → sampleC.relative.start = sampleC.relative.endPos →
        Span.display true sampleC = Span.displayStart sampleC) ∧
    (sampleC.is_unknown = false →
        sampleC.relative.start.line = sampleC.relative.endPos.line →
        sampleC.relative.start.column + 1 = sampleC.relative.endPos.column →
        Span.display true sampleC = Span.displayStart sampleC) ∧
    (sampleC.is_unknown = false →
        Span.display false sampleC = Span.displayStart sampleC) ∧
    (sampleC.is_unknown = false →
        sampleC.relative.start ≠ sampleC.relative.endPos →
        ¬(sampleC.relative.start.line = sampleC.relative.endPos.line ∧
          sampleC.relative.start.column + 1 = sampleC.relative.endPos.column) →
        Span.display true sampleC
          = Span.displayStart sampleC ++ " to"
            ++ (if sampleC.relative.start.line ≠ sampleC.relative.endPos.line
                then " line " ++ toString sampleC.relative.endPos.line else "")
            ++ " column " ++ toString sampleC.relative.endPos.column) ∧
    Span.display true
        ((Chars.advance 3 (Chars.new "123456".data)).end_token
          ((Chars.new "123456".data).start_token))
      = "line 1 column 1 to column 4" :=
  C9_display_rules sampleC true
